import Mathlib

/-!
Shallow embedding of the 2-D TMOP partial-assembly (PA) Hessian kernels
(`SetupGradPA_2D`, `AddMultGradPA_Kernel_2D`, `TMOP_Integrator::AddMultGradPA`)
and of the 2x2 matrix-invariant derivative library
(`Dim2Invariant2_dM`, `Dim2Invariant2_dMdM`, `Dim2Invariant1_dMdM`).

Machine floating-point arithmetic is idealized as exact arithmetic: the
invariant-derivative library is embedded over an arbitrary field (so that it
can be instantiated at `ℝ` for the analytic-derivative theorem), and the
sum-factorized kernels over `ℚ`, so every definition is executable and
concrete runs can be checked by `decide`.

Index conventions.  A local degree of freedom is indexed by its
tensor-product pair `(i1, i2) : Fin D × Fin D`; the flat dof index of the
source is `i2 + i1*D1D` (a bijection with the pairs), and a flat row
`i + r*dof` of the source corresponds to the pair/component index
`(i1, i2, r)` here.  Matrices are indexed `(row, column)`; the column-major
buffers of the source are translated entrywise to this convention.
-/

namespace TmopPA

/-- Shape of a 2x2 matrix (`mfem::DenseMatrix` of dimensions 2 x 2). -/
abbrev Mat2 (F : Type) := Fin 2 → Fin 2 → F

section InvariantLibrary

variable {F : Type} [Field F]

/-- Determinant of a 2x2 matrix, as `DenseMatrix::Det` computes it for
dimension 2. -/
def detM (M : Mat2 F) : F := M 0 0 * M 1 1 - M 0 1 * M 1 0

/-- Squared Frobenius norm of a 2x2 matrix (`DenseMatrix::FNorm2`). -/
def fnorm2M (M : Mat2 F) : F :=
  M 0 0 * M 0 0 + M 0 1 * M 0 1 + M 1 0 * M 1 0 + M 1 1 * M 1 1

/-- Product of two 2x2 matrices (`mfem::Mult` / `kernels::Mult(2,2,2,..)`). -/
def mat2Mul (A B : Mat2 F) : Mat2 F := fun r c => A r 0 * B 0 c + A r 1 * B 1 c

/-- Inverse of a 2x2 matrix, exactly as `kernels::CalcInverse<2>` computes it:
the adjugate divided by the determinant. -/
def calcInverse (M : Mat2 F) : Mat2 F := fun r c =>
  ![![M 1 1, -(M 0 1)], ![-(M 1 0), M 0 0]] r c / detM M

/-- The elementary matrix with a single 1 at position `(i,j)`: the local
matrix `dM` of `Dim2Invariant1_dMdM` (`dM = 0.0; dM(i,j) = 1.0`). -/
def indic (i j : Fin 2) : Mat2 F := fun r c => if r = i ∧ c = j then 1 else 0

/-- `Dim2Invariant2_dM`: the derivative of `det(M)` with respect to each
entry, i.e. the transposed adjugate, transcribed entry by entry from the
source. -/
def Dim2Invariant2_dM (M : Mat2 F) : Mat2 F :=
  ![![M 1 1, -(M 1 0)], ![-(M 0 1), M 0 0]]

/-- `Dim2Invariant2_dMdM`: second derivative of `det(M)` with respect to
entry `(i,j)` and every entry: `dMdM = 0` except `dMdM(1-i,1-j) = ±1` with
sign `+1` when `i == j`. -/
def Dim2Invariant2_dMdM (_M : Mat2 F) (i j : Fin 2) : Mat2 F := fun r c =>
  if r = 1 - i ∧ c = 1 - j then (if i = j then 1 else -1) else 0

/-- `Dim2Invariant1_dMdM`: the quotient-rule formula of the source,
transcribed with its locals inlined (`ddet = dI(i,j)` with
`dI = Dim2Invariant2_dM M`, `dfnorm2 = 2*M(i,j)`, `det2 = det*det`,
`dM = indic i j`, `ddI = Dim2Invariant2_dMdM M i j`). -/
def Dim2Invariant1_dMdM (M : Mat2 F) (i j : Fin 2) : Mat2 F := fun r c =>
  (detM M * detM M *
      (2 * Dim2Invariant2_dM M i j * M r c + 2 * detM M * indic i j r c
        - 2 * M i j * Dim2Invariant2_dM M r c
        - fnorm2M M * Dim2Invariant2_dMdM M i j r c)
    - 2 * detM M * Dim2Invariant2_dM M i j *
      (2 * detM M * M r c - fnorm2M M * Dim2Invariant2_dM M r c))
  / (detM M * detM M * (detM M * detM M))

/-- Straight-line perturbation of entry `(i,j)`: `M + t * E_ij`.  Used to
express the entrywise partial derivative with respect to `M(i,j)` as a
one-variable derivative at `t = 0`. -/
def perturb (M : Mat2 F) (i j : Fin 2) (t : F) : Mat2 F :=
  fun a b => M a b + t * indic i j a b

/-- Gradient expression named by the spec:
`(2 det(M) M - fnorm2(M) adj(M)^T) / det(M)^2` (written with
`adj(M)^T = Dim2Invariant2_dM M`).  This is the spec-side reference whose
entrywise `(i,j)`-derivative `Dim2Invariant1_dMdM` is claimed to compute. -/
def P1grad (M : Mat2 F) : Mat2 F := fun r c =>
  (2 * detM M * M r c - fnorm2M M * Dim2Invariant2_dM M r c) / (detM M * detM M)

end InvariantLibrary

/-! ## The sum-factorized kernels, embedded over `ℚ`

`D` is `D1D` (dofs per dimension), `Q` is `Q1D` (quadrature points per
dimension), `NE` the number of elements. -/

/-- 1-D basis table (`maps->B` / `maps->G`), indexed `(q, d)` like
`Reshape(b1d_.Read(), Q1D, D1D)`. -/
abbrev BTab (Q D : ℕ) := Fin Q → Fin D → ℚ

/-- Per-element nodal / trial / output field, indexed `(dx, dy, comp, e)`
like `Reshape(xe_.Read(), D1D, D1D, VDIM, NE)`. -/
abbrev Nodal (D NE : ℕ) := Fin D → Fin D → Fin 2 → Fin NE → ℚ

/-- The factored coefficient tensor `P`, indexed `(rr, cc, r, c, qx, qy, e)`
like `Reshape(p_, VDIM, VDIM, VDIM, VDIM, Q1D, Q1D, NE)`. -/
abbrev TensorP (Q NE : ℕ) := Fin 2 → Fin 2 → Fin 2 → Fin 2 → Fin Q → Fin Q → Fin NE → ℚ

/-- The dense per-quadrature-point tensor `G`, indexed
`(qx, qy, i1, i2, r, j1, j2, rr, e)`: the source's flat indices
`(i + r*dof, j + rr*dof)` of `Reshape(g_, Q1D, Q1D, dof*VDIM, dof*VDIM, NE)`
written with dofs as tensor-product pairs. -/
abbrev TensorG (D Q NE : ℕ) :=
  Fin Q → Fin Q → Fin D → Fin D → Fin 2 → Fin D → Fin D → Fin 2 → Fin NE → ℚ

section Kernels

variable {D Q NE : ℕ}

/-- First forward pass, value channel: `XxB[dy][qx] / XyB[dy][qx]`
(`u[comp] += B1d[qx][dx] * X(dx,dy,comp,e)`). -/
def fwdB (b : BTab Q D) (X : Nodal D NE) (comp : Fin 2) (e : Fin NE)
    (dy : Fin D) (qx : Fin Q) : ℚ :=
  ∑ dx, b qx dx * X dx dy comp e

/-- First forward pass, derivative channel: `XxG[dy][qx] / XyG[dy][qx]`
(`v[comp] += G1d[qx][dx] * X(dx,dy,comp,e)`). -/
def fwdG (g1 : BTab Q D) (X : Nodal D NE) (comp : Fin 2) (e : Fin NE)
    (dy : Fin D) (qx : Fin Q) : ℚ :=
  ∑ dx, g1 qx dx * X dx dy comp e

/-- Second forward pass, channel 0: `Xx0[qy][qx] / Xy0[qy][qx]`
(`u[comp] += XxG[dy][qx] * B1d[qy][dy]`). -/
def fwd0 (b g1 : BTab Q D) (X : Nodal D NE) (comp : Fin 2) (e : Fin NE)
    (qy qx : Fin Q) : ℚ :=
  ∑ dy, fwdG g1 X comp e dy qx * b qy dy

/-- Second forward pass, channel 1: `Xx1[qy][qx] / Xy1[qy][qx]`
(`v[comp] += XxB[dy][qx] * G1d[qy][dy]`). -/
def fwd1 (b g1 : BTab Q D) (X : Nodal D NE) (comp : Fin 2) (e : Fin NE)
    (qy qx : Fin Q) : ℚ :=
  ∑ dy, fwdB b X comp e dy qx * g1 qy dy

/-- The interpolated 2x2 gradient at a quadrature point: the matrix `GXh`
(resp. `hX`) built column-major from `{Xx0, Xy0, Xx1, Xy1}`, so that
row = vector component and column = derivative direction. -/
def gradQ (b g1 : BTab Q D) (X : Nodal D NE) (e : Fin NE)
    (qx qy : Fin Q) : Mat2 ℚ := fun comp dir =>
  if dir = 0 then fwd0 b g1 X comp e qy qx else fwd1 b g1 X comp e qy qx

/-- Reference-space shape-function gradients `DSh` at a quadrature point:
`DSh(i2 + i1*D1D, 0) = G1d[qx][i1] * B1d[qy][i2]`,
`DSh(i2 + i1*D1D, 1) = B1d[qx][i1] * G1d[qy][i2]`. -/
def DSh (b g1 : BTab Q D) (qx qy : Fin Q) (i1 i2 : Fin D) (d : Fin 2) : ℚ :=
  if d = 0 then g1 qx i1 * b qy i2 else b qx i1 * g1 qy i2

/-- Physical-space shape-function gradients `DS = DSh * Jrt` with
`Jrt = Jtr^{-1}`. -/
def DS (b g1 : BTab Q D) (Jtr : Mat2 ℚ) (qx qy : Fin Q)
    (i1 i2 : Fin D) (c : Fin 2) : ℚ :=
  ∑ d, DSh b g1 qx qy i1 i2 d * calcInverse Jtr d c

/-- The local Jacobian `Jpt = GX * Jrt` computed by `SetupGradPA_2D` from the
two sum-factorized forward passes. -/
def Jpt (b g1 : BTab Q D) (Jtr : Mat2 ℚ) (X : Nodal D NE) (e : Fin NE)
    (qx qy : Fin Q) : Mat2 ℚ :=
  mat2Mul (gradQ b g1 X e qx qy) (calcInverse Jtr)

/-- Orientation `sign = Jpt.Det() < 0.0 ? -1.0 : 1.0`. -/
def signJpt (b g1 : BTab Q D) (Jtr : Mat2 ℚ) (X : Nodal D NE) (e : Fin NE)
    (qx qy : Fin Q) : ℚ :=
  if detM (Jpt b g1 Jtr X e qx qy) < 0 then -1 else 1

/-- The scaled per-quadrature-point Hessian slice written into `P`:
`dP = Dim2Invariant1_dMdM(Jpt, r, c)` scaled by
`sign * 0.5 * weight * det(Jtr)`. -/
def dPscaled (W : Fin Q → Fin Q → ℚ) (b g1 : BTab Q D) (Jtr : Mat2 ℚ)
    (X : Nodal D NE) (e : Fin NE) (qx qy : Fin Q) (r c : Fin 2) : Mat2 ℚ :=
  fun rr cc =>
    signJpt b g1 Jtr X e qx qy * (1 / 2) * (W qx qy * detM Jtr) *
      Dim2Invariant1_dMdM (Jpt b g1 Jtr X e qx qy) r c rr cc

/-- The `P` output of `SetupGradPA_2D`: `P(rr,cc,r,c,qx,qy,e) = dP(rr,cc)`
(the buffer is fully overwritten). -/
def SetupGradPA_2D_P (W : Fin Q → Fin Q → ℚ) (b g1 : BTab Q D) (Jtr : Mat2 ℚ)
    (X : Nodal D NE) : TensorP Q NE :=
  fun rr cc r c qx qy e => dPscaled W b g1 Jtr X e qx qy r c rr cc

/-- The `G` output of `SetupGradPA_2D`: into the prior contents `G0`, the
kernel accumulates `G(qx,qy, i+r*dof, j+rr*dof, e) += DS(i,c)*DS(j,cc)*dP(rr,cc)`
over the loop indices `c` and `cc`. -/
def SetupGradPA_2D_G (W : Fin Q → Fin Q → ℚ) (b g1 : BTab Q D) (Jtr : Mat2 ℚ)
    (X : Nodal D NE) (G0 : TensorG D Q NE) : TensorG D Q NE :=
  fun qx qy i1 i2 r j1 j2 rr e =>
    G0 qx qy i1 i2 r j1 j2 rr e +
      ∑ c, ∑ cc, DS b g1 Jtr qx qy i1 i2 c * DS b g1 Jtr qx qy j1 j2 cc *
        dPscaled W b g1 Jtr X e qx qy r c rr cc

/-- The contracted matrix `A = hX * Jrt` of `AddMultGradPA_Kernel_2D`, where
`hX` is the interpolated gradient of the trial field `R`. -/
def Amat (b g1 : BTab Q D) (Jtr : Mat2 ℚ) (R : Nodal D NE) (e : Fin NE)
    (qx qy : Fin Q) : Mat2 ℚ :=
  mat2Mul (gradQ b g1 R e qx qy) (calcInverse Jtr)

/-- The double contraction `B[r+2*c] = Σ_{i,j} dP(i,j,r,c,qx,qy,e) * A[i+2*j]`. -/
def Bmat (b g1 : BTab Q D) (Jtr : Mat2 ℚ) (P : TensorP Q NE) (R : Nodal D NE)
    (e : Fin NE) (qx qy : Fin Q) (r c : Fin 2) : ℚ :=
  ∑ i, ∑ j, P i j r c qx qy e * Amat b g1 Jtr R e qx qy i j

/-- `C = Jrt * B^T` (`kernels::MultABt(2,2,2, Jrt, B, C)`). -/
def Cmat (b g1 : BTab Q D) (Jtr : Mat2 ℚ) (P : TensorP Q NE) (R : Nodal D NE)
    (e : Fin NE) (qx qy : Fin Q) (a bcol : Fin 2) : ℚ :=
  ∑ k, calcInverse Jtr a k * Bmat b g1 Jtr P R e qx qy bcol k

/-- The quantity the Apply kernel adds into `Y(dx,dy,comp,e)`: the two
backward (transposed) sum-factorization passes applied to the channels
`Cx0 = C(0,0), Cx1 = C(1,0), Cy0 = C(0,1), Cy1 = C(1,1)`, i.e.
`u[comp] + v[comp]` of the final loop. -/
def applyAdd (b g1 : BTab Q D) (Jtr : Mat2 ℚ) (P : TensorP Q NE)
    (R : Nodal D NE) (dx dy : Fin D) (comp : Fin 2) (e : Fin NE) : ℚ :=
  (∑ qy, (∑ qx, g1 qx dx * Cmat b g1 Jtr P R e qx qy 0 comp) * b qy dy)
  + (∑ qy, (∑ qx, b qx dx * Cmat b g1 Jtr P R e qx qy 1 comp) * g1 qy dy)

/-- `AddMultGradPA_Kernel_2D`: the Apply kernel.  It accumulates into the
output field: `Y(dx,dy,comp,e) += u[comp] + v[comp]`. -/
def AddMultGradPA_Kernel_2D (b g1 : BTab Q D) (Jtr : Mat2 ℚ) (P : TensorP Q NE)
    (R Y : Nodal D NE) : Nodal D NE :=
  fun dx dy comp e => Y dx dy comp e + applyAdd b g1 Jtr P R dx dy comp e

/-! ### Spec-side reference definitions (for the refinement claims)

These follow the words of the spec, not the staged code: a dense,
non-factorized contraction of the per-quadrature-point coefficient tensor
weighted by `DS` outer products, and a direct (single dense contraction)
interpolation of the local Jacobian. -/

/-- Spec-side dense assembled local Hessian at one quadrature point:
entry `[(i,r), (j,rr)] = Σ_{c,cc} DS(i,c) * DS(j,cc) * P(rr,cc,r,c,qx,qy,e)`. -/
def specDenseHessian (b g1 : BTab Q D) (Jtr : Mat2 ℚ) (P : TensorP Q NE)
    (qx qy : Fin Q) (i1 i2 : Fin D) (r : Fin 2) (j1 j2 : Fin D) (rr : Fin 2)
    (e : Fin NE) : ℚ :=
  ∑ c, ∑ cc, DS b g1 Jtr qx qy i1 i2 c * DS b g1 Jtr qx qy j1 j2 cc *
    P rr cc r c qx qy e

/-- Spec-side direct dense contraction of the assembled local Hessian with
the trial field: `Σ_{qp} Σ_{(j,rr)} H[(i,r),(j,rr)] * R(j,rr)`. -/
def specDenseContract (b g1 : BTab Q D) (Jtr : Mat2 ℚ) (P : TensorP Q NE)
    (R : Nodal D NE) (dx dy : Fin D) (comp : Fin 2) (e : Fin NE) : ℚ :=
  ∑ qy, ∑ qx, ∑ j1, ∑ j2, ∑ rr,
    specDenseHessian b g1 Jtr P qx qy dx dy comp j1 j2 rr e * R j1 j2 rr e

/-- Spec-side direct (non-factorized) local Jacobian: a single dense
contraction `Jpt = (Σ_{nodes} X(node) ⊗ DSh(node)) * Jrt`. -/
def specJpt (b g1 : BTab Q D) (Jtr : Mat2 ℚ) (X : Nodal D NE) (e : Fin NE)
    (qx qy : Fin Q) : Mat2 ℚ :=
  mat2Mul (fun comp d => ∑ j1, ∑ j2, DSh b g1 qx qy j1 j2 d * X j1 j2 comp e)
    (calcInverse Jtr)

/-- Spec-side orientation `sign = sign(det(Jpt))` computed from the direct
Jacobian. -/
def specSign (b g1 : BTab Q D) (Jtr : Mat2 ℚ) (X : Nodal D NE) (e : Fin NE)
    (qx qy : Fin Q) : ℚ :=
  if detM (specJpt b g1 Jtr X e qx qy) < 0 then -1 else 1

end Kernels

/-! ## The dispatch / caching layer (`TMOP_Integrator::AddMultGradPA`) -/

/-- The dispatch key `id = (D1D << 4) | Q1D`. -/
def kernelId (d q : ℕ) : ℕ := (d <<< 4) ||| q

/-- The ids enumerated by the two `switch` statements: `0x21 .. 0x55`. -/
def supportedIds : List ℕ :=
  [0x21, 0x22, 0x23, 0x24, 0x25,
   0x31, 0x32, 0x33, 0x34, 0x35,
   0x41, 0x42, 0x43, 0x44, 0x45,
   0x51, 0x52, 0x53, 0x54, 0x55]

/-- A configuration dispatches (rather than hitting `MFEM_ABORT("Unknown
kernel.")`) exactly when its id is one of the enumerated case labels. -/
def kernelSupported (d q : ℕ) : Prop := kernelId d q ∈ supportedIds

instance (d q : ℕ) : Decidable (kernelSupported d q) := by
  unfold kernelSupported; infer_instance

/-- The enumerated configuration set named by the spec and the claims:
`{2,3,4,5} x {1,2,3,4,5}` for `(D1D, Q1D)`. -/
def pairEnumerated (d q : ℕ) : Prop := (2 ≤ d ∧ d ≤ 5) ∧ (1 ≤ q ∧ q ≤ 5)

instance (d q : ℕ) : Decidable (pairEnumerated d q) := by
  unfold pairEnumerated; infer_instance

/-- Mutable state owned by the dispatch layer: the `setup` flag and the two
cached buffers `dPpa` (factored tensor) and `Gpa` (dense per-qp blocks). -/
structure PAState (D Q NE : ℕ) where
  setup : Bool
  dPpa : TensorP Q NE
  Gpa : TensorG D Q NE

/-- All-zero dense tensor (the `Gpa = 0.0;` reset). -/
def zeroG (D Q NE : ℕ) : TensorG D Q NE := fun _ _ _ _ _ _ _ _ _ => 0

/-- The `if (!setup) { Gpa = 0.0; setup = true; SetupGradPA_2D(...); }` step. -/
def runSetup {D Q NE : ℕ} (W : Fin Q → Fin Q → ℚ) (b g1 : BTab Q D)
    (Jtr : Mat2 ℚ) (Xe : Nodal D NE) (st : PAState D Q NE) : PAState D Q NE :=
  if st.setup then st else
    ⟨true, SetupGradPA_2D_P W b g1 Jtr Xe,
      SetupGradPA_2D_G W b g1 Jtr Xe (zeroG D Q NE)⟩

/-- `TMOP_Integrator::AddMultGradPA`: verifies `det(Jtr) == 1`, then that
`Jtr` is exactly the identity; dispatches only enumerated kernel ids,
aborting (`MFEM_ABORT`) otherwise; runs Setup only when the `setup` flag is
unset; and always runs the Apply kernel on the cached tensor.  The returned
`Bool` reports whether this call invoked Setup (the spec's invocation
counter).  `Except.error ()` models the fatal abort of `MFEM_VERIFY` /
`MFEM_ABORT`. -/
def AddMultGradPA {D Q NE : ℕ} (W : Fin Q → Fin Q → ℚ) (b g1 : BTab Q D)
    (Jtr : Mat2 ℚ) (st : PAState D Q NE) (Xe Re Ce : Nodal D NE) :
    Except Unit (PAState D Q NE × Nodal D NE × Bool) :=
  if detM Jtr = 1 then
    if Jtr 0 0 = 1 ∧ Jtr 1 1 = 1 ∧ Jtr 1 0 = 0 ∧ Jtr 0 1 = 0 then
      if kernelSupported D Q then
        let st2 := runSetup W b g1 Jtr Xe st
        Except.ok (st2, AddMultGradPA_Kernel_2D b g1 Jtr st2.dPpa Re Ce, !st.setup)
      else Except.error ()
    else Except.error ()
  else Except.error ()

/-- A sequence of `AddMultGradPA` calls threading the cached state, counting
how many of them ran Setup. -/
def runCalls {D Q NE : ℕ} (W : Fin Q → Fin Q → ℚ) (b g1 : BTab Q D)
    (Jtr : Mat2 ℚ) (st : PAState D Q NE) :
    List (Nodal D NE × Nodal D NE × Nodal D NE) → Except Unit (PAState D Q NE × ℕ)
  | [] => Except.ok (st, 0)
  | call :: rest =>
    match AddMultGradPA W b g1 Jtr st call.1 call.2.1 call.2.2 with
    | Except.error e => Except.error e
    | Except.ok (st2, _, ran) =>
      match runCalls W b g1 Jtr st2 rest with
      | Except.error e => Except.error e
      | Except.ok (stf, n) => Except.ok (stf, (if ran then 1 else 0) + n)

/-! ## Concrete configurations used by witnesses and counterexamples -/

/-- Identity reference Jacobian. -/
def idJtr : Mat2 ℚ := fun a b => if a = b then 1 else 0

/-- A rotation by 90 degrees: unit determinant but not the identity. -/
def rotJtr : Mat2 ℚ := ![![0, -1], ![1, 0]]

/-- A reference Jacobian with determinant 2. -/
def scaleJtr : Mat2 ℚ := ![![2, 0], ![0, 1]]

/-- Concrete 1-point / 2-dof basis value table (both shape functions equal
`1/2` at the midpoint). -/
def bW : BTab 1 2 := fun _ _ => 1 / 2

/-- Concrete 1-point / 2-dof basis derivative table. -/
def gW : BTab 1 2 := fun _ d => if d = 0 then -(1 / 2) else 1 / 2

/-- Concrete quadrature weight table. -/
def wW : Fin 1 → Fin 1 → ℚ := fun _ _ => 4

/-- Concrete nodal field: the identity-like placement `x = dx, y = dy`. -/
def xW : Nodal 2 1 := fun dx dy comp _ =>
  if comp = 0 then (if dx = 0 then 0 else 1) else (if dy = 0 then 0 else 1)

/-- All-zero nodal field. -/
def zeroN (D NE : ℕ) : Nodal D NE := fun _ _ _ _ => 0

/-- All-zero basis table. -/
def zeroB (Q D : ℕ) : BTab Q D := fun _ _ => 0

/-- All-zero weights. -/
def zeroW (Q : ℕ) : Fin Q → Fin Q → ℚ := fun _ _ => 0

/-- Initial dispatch state: `setup` unset, zero caches. -/
def initSt (D Q NE : ℕ) : PAState D Q NE :=
  ⟨false, fun _ _ _ _ _ _ _ => 0, zeroG D Q NE⟩

/-- Concrete perturbed matrix over `ℝ` used by the derivative witness. -/
def mW : Mat2 ℝ := ![![2, 0], ![0, 1]]


/-! ## Helper lemmas: flattening the sum-factorized passes -/


lemma gradQ_flat {D Q NE : ℕ} (b g1 : BTab Q D) (X : Nodal D NE) (e : Fin NE)
    (qx qy : Fin Q) (comp dir : Fin 2) :
    gradQ b g1 X e qx qy comp dir
      = ∑ j1, ∑ j2, DSh b g1 qx qy j1 j2 dir * X j1 j2 comp e := by
  fin_cases dir
  · show fwd0 b g1 X comp e qy qx
      = ∑ j1, ∑ j2, DSh b g1 qx qy j1 j2 0 * X j1 j2 comp e
    simp only [fwd0, fwdG, DSh, if_pos]
    simp only [Finset.sum_mul]
    rw [Finset.sum_comm]
    exact Finset.sum_congr rfl fun j1 _ => Finset.sum_congr rfl fun j2 _ => by ring
  · show fwd1 b g1 X comp e qy qx
      = ∑ j1, ∑ j2, DSh b g1 qx qy j1 j2 1 * X j1 j2 comp e
    have h1 : ∀ i1 i2 : Fin D, DSh b g1 qx qy i1 i2 1 = b qx i1 * g1 qy i2 := by
      intro i1 i2; simp [DSh]
    simp only [fwd1, fwdB, h1]
    simp only [Finset.sum_mul]
    rw [Finset.sum_comm]
    exact Finset.sum_congr rfl fun j1 _ => Finset.sum_congr rfl fun j2 _ => by ring

lemma Amat_flat {D Q NE : ℕ} (b g1 : BTab Q D) (Jtr : Mat2 ℚ) (R : Nodal D NE)
    (e : Fin NE) (qx qy : Fin Q) (a bb : Fin 2) :
    Amat b g1 Jtr R e qx qy a bb
      = ∑ j1, ∑ j2, R j1 j2 a e * DS b g1 Jtr qx qy j1 j2 bb := by
  simp only [Amat, mat2Mul, gradQ_flat, DS, Fin.sum_univ_two]
  simp only [Finset.sum_mul]
  simp only [← Finset.sum_add_distrib]
  exact Finset.sum_congr rfl fun j1 _ => Finset.sum_congr rfl fun j2 _ => by ring

lemma applyAdd_perQp {D Q NE : ℕ} (b g1 : BTab Q D) (Jtr : Mat2 ℚ) (P : TensorP Q NE)
    (R : Nodal D NE) (e : Fin NE) (qx qy : Fin Q) (dx dy : Fin D) (comp : Fin 2) :
    DSh b g1 qx qy dx dy 0 * Cmat b g1 Jtr P R e qx qy 0 comp
      + DSh b g1 qx qy dx dy 1 * Cmat b g1 Jtr P R e qx qy 1 comp
    = ∑ j1, ∑ j2, ∑ rr,
        specDenseHessian b g1 Jtr P qx qy dx dy comp j1 j2 rr e * R j1 j2 rr e := by
  simp only [Cmat, Bmat, Amat_flat, specDenseHessian, DS, Fin.sum_univ_two,
    Finset.mul_sum, Finset.sum_mul, mul_add, add_mul]
  simp only [← Finset.sum_add_distrib]
  refine Finset.sum_congr rfl fun j1 _ => Finset.sum_congr rfl fun j2 _ => ?_
  ring

lemma applyAdd_eq_dense {D Q NE : ℕ} (b g1 : BTab Q D) (Jtr : Mat2 ℚ)
    (P : TensorP Q NE) (R : Nodal D NE) (dx dy : Fin D) (comp : Fin 2) (e : Fin NE) :
    applyAdd b g1 Jtr P R dx dy comp e
      = specDenseContract b g1 Jtr P R dx dy comp e := by
  unfold applyAdd specDenseContract
  rw [← Finset.sum_add_distrib]
  refine Finset.sum_congr rfl fun qy _ => ?_
  rw [Finset.sum_mul, Finset.sum_mul, ← Finset.sum_add_distrib]
  refine Finset.sum_congr rfl fun qx _ => ?_
  rw [← applyAdd_perQp]
  simp [DSh, Fin.ext_iff]
  ring

lemma Jpt_eq_spec {D Q NE : ℕ} (b g1 : BTab Q D) (Jtr : Mat2 ℚ) (X : Nodal D NE)
    (e : Fin NE) (qx qy : Fin Q) :
    Jpt b g1 Jtr X e qx qy = specJpt b g1 Jtr X e qx qy := by
  have h : gradQ b g1 X e qx qy
      = fun comp d => ∑ j1, ∑ j2, DSh b g1 qx qy j1 j2 d * X j1 j2 comp e := by
    funext comp d
    exact gradQ_flat b g1 X e qx qy comp d
  unfold Jpt specJpt
  rw [h]

lemma signJpt_eq_spec {D Q NE : ℕ} (b g1 : BTab Q D) (Jtr : Mat2 ℚ) (X : Nodal D NE)
    (e : Fin NE) (qx qy : Fin Q) :
    signJpt b g1 Jtr X e qx qy = specSign b g1 Jtr X e qx qy := by
  unfold signJpt specSign
  rw [Jpt_eq_spec]



lemma shiftLeft_lor_eq_add (k : ℕ) : ∀ d q : ℕ, q < 2 ^ k → (d <<< k) ||| q = d * 2 ^ k + q := by
  induction k with
  | zero =>
    intro d q h
    have hq : q = 0 := by omega
    subst hq
    simp [Nat.shiftLeft_zero]
  | succ k ih =>
    intro d q h
    have hq2 : Nat.div2 q < 2 ^ k := by
      rw [Nat.div2_val]
      have h2 : (2:ℕ) ^ (k+1) = 2 ^ k * 2 := by ring
      omega
    have hih := ih d (Nat.div2 q) hq2
    calc (d <<< (k+1)) ||| q
        = Nat.bit false (d <<< k) ||| Nat.bit (Nat.bodd q) (Nat.div2 q) := by
          rw [Nat.bit_decomp]
          congr 1
          simp [Nat.bit, Nat.shiftLeft_eq]
          ring
      _ = Nat.bit (false || Nat.bodd q) ((d <<< k) ||| Nat.div2 q) := Nat.lor_bit false (d <<< k) (Nat.bodd q) (Nat.div2 q)
      _ = d * 2 ^ (k+1) + q := by
          rw [Bool.false_or, hih, Nat.bit_val]
          have hm : (Nat.bodd q).toNat = q % 2 := (Nat.mod_two_of_bodd q).symm
          have hq' : Nat.div2 q = q / 2 := Nat.div2_val q
          have hpow : d * 2 ^ (k+1) = 2 * (d * 2 ^ k) := by ring
          omega

lemma kernelSupported_enumerated (d q : ℕ) (hq : q < 16) :
    kernelSupported d q → pairEnumerated d q := by
  intro h
  have h4 : q < 2 ^ 4 := by simpa using hq
  have hid : kernelId d q = d * 16 + q := by
    have h5 := shiftLeft_lor_eq_add 4 d q h4
    simpa [kernelId] using h5
  unfold kernelSupported supportedIds at h
  rw [hid] at h
  simp only [List.mem_cons, List.not_mem_nil, or_false] at h
  unfold pairEnumerated
  omega

/-- C3: for every 2x2 matrix `M` with `det(M) ≠ 0` and every `i, j`,
`Dim2Invariant1_dMdM M i j` is exactly the entrywise partial derivative with
respect to `M(i,j)` of the gradient expression
`(2 det(M) M - fnorm2(M) adj(M)^T) / det(M)^2` (`P1grad`), stated as a
one-variable derivative at `t = 0` along the elementary perturbation
`M + t E_ij`. -/

theorem claim3_d2metric_is_derivative (M : Mat2 ℝ) (i j r c : Fin 2) (h : detM M ≠ 0) :
    HasDerivAt (fun t : ℝ => P1grad (perturb M i j t) r c)
      (Dim2Invariant1_dMdM M i j r c) 0 := by
  have hlin : ∀ a b : Fin 2,
      HasDerivAt (fun t : ℝ => M a b + t * indic i j a b) (indic i j a b) 0 := by
    intro a b
    simpa using (((hasDerivAt_id (0:ℝ)).mul_const (indic i j a b)).const_add (M a b))
  have hP0 : perturb M i j 0 = M := by
    funext a b; simp [perturb]
  have hdet : HasDerivAt (fun t : ℝ => detM (perturb M i j t))
      (Dim2Invariant2_dM M i j) 0 := by
    have h1 : (fun t : ℝ => detM (perturb M i j t))
        = fun t : ℝ => (M 0 0 + t * indic i j 0 0) * (M 1 1 + t * indic i j 1 1)
            - (M 0 1 + t * indic i j 0 1) * (M 1 0 + t * indic i j 1 0) := by
      funext t; simp [detM, perturb]
    rw [h1]
    have h2 := ((hlin 0 0).mul (hlin 1 1)).sub ((hlin 0 1).mul (hlin 1 0))
    convert h2 using 1
    fin_cases i <;> fin_cases j <;>
      simp [Dim2Invariant2_dM, indic, Fin.ext_iff, Matrix.cons_val_zero, Matrix.cons_val_one,
        Matrix.head_cons]
  have hf2 : HasDerivAt (fun t : ℝ => fnorm2M (perturb M i j t)) (2 * M i j) 0 := by
    have h1 : (fun t : ℝ => fnorm2M (perturb M i j t))
        = fun t : ℝ => (M 0 0 + t * indic i j 0 0) * (M 0 0 + t * indic i j 0 0)
            + (M 0 1 + t * indic i j 0 1) * (M 0 1 + t * indic i j 0 1)
            + (M 1 0 + t * indic i j 1 0) * (M 1 0 + t * indic i j 1 0)
            + (M 1 1 + t * indic i j 1 1) * (M 1 1 + t * indic i j 1 1) := by
      funext t; simp [fnorm2M, perturb]
    rw [h1]
    have h2 := ((((hlin 0 0).mul (hlin 0 0)).add ((hlin 0 1).mul (hlin 0 1))).add
      ((hlin 1 0).mul (hlin 1 0))).add ((hlin 1 1).mul (hlin 1 1))
    convert h2 using 1
    fin_cases i <;> fin_cases j <;>
      simp [indic, Fin.ext_iff] <;> ring
  have hdI : ∀ a b : Fin 2,
      HasDerivAt (fun t : ℝ => Dim2Invariant2_dM (perturb M i j t) a b)
        (Dim2Invariant2_dMdM M i j a b) 0 := by
    intro a b
    fin_cases a <;> fin_cases b
    · show HasDerivAt (fun t : ℝ => Dim2Invariant2_dM (perturb M i j t) 0 0)
        (Dim2Invariant2_dMdM M i j 0 0) 0
      have h1 : (fun t : ℝ => Dim2Invariant2_dM (perturb M i j t) 0 0)
          = fun t : ℝ => M 1 1 + t * indic i j 1 1 := by
        funext t
        simp [Dim2Invariant2_dM, perturb, Matrix.cons_val_zero, Matrix.cons_val_one,
          Matrix.head_cons]
      rw [h1]
      convert hlin 1 1 using 1
      fin_cases i <;> fin_cases j <;> rfl
    · show HasDerivAt (fun t : ℝ => Dim2Invariant2_dM (perturb M i j t) 0 1)
        (Dim2Invariant2_dMdM M i j 0 1) 0
      have h1 : (fun t : ℝ => Dim2Invariant2_dM (perturb M i j t) 0 1)
          = fun t : ℝ => -(M 1 0 + t * indic i j 1 0) := by
        funext t
        simp [Dim2Invariant2_dM, perturb, Matrix.cons_val_zero, Matrix.cons_val_one,
          Matrix.head_cons]
      rw [h1]
      convert (hlin 1 0).neg using 1
      fin_cases i <;> fin_cases j <;>
        simp [Dim2Invariant2_dMdM, indic, Fin.ext_iff, Fin.mk_zero, Fin.mk_one]
    · show HasDerivAt (fun t : ℝ => Dim2Invariant2_dM (perturb M i j t) 1 0)
        (Dim2Invariant2_dMdM M i j 1 0) 0
      have h1 : (fun t : ℝ => Dim2Invariant2_dM (perturb M i j t) 1 0)
          = fun t : ℝ => -(M 0 1 + t * indic i j 0 1) := by
        funext t
        simp [Dim2Invariant2_dM, perturb, Matrix.cons_val_zero, Matrix.cons_val_one,
          Matrix.head_cons]
      rw [h1]
      convert (hlin 0 1).neg using 1
      fin_cases i <;> fin_cases j <;>
        simp [Dim2Invariant2_dMdM, indic, Fin.ext_iff, Fin.mk_zero, Fin.mk_one]
    · show HasDerivAt (fun t : ℝ => Dim2Invariant2_dM (perturb M i j t) 1 1)
        (Dim2Invariant2_dMdM M i j 1 1) 0
      have h1 : (fun t : ℝ => Dim2Invariant2_dM (perturb M i j t) 1 1)
          = fun t : ℝ => M 0 0 + t * indic i j 0 0 := by
        funext t
        simp [Dim2Invariant2_dM, perturb, Matrix.cons_val_zero, Matrix.cons_val_one,
          Matrix.head_cons]
      rw [h1]
      convert hlin 0 0 using 1
      fin_cases i <;> fin_cases j <;> rfl
  have hnum := ((hdet.const_mul (2:ℝ)).mul (hlin r c)).sub (hf2.mul (hdI r c))
  have hden := hdet.mul hdet
  have hden0 : detM (perturb M i j 0) * detM (perturb M i j 0) ≠ 0 := by
    rw [hP0]; exact mul_ne_zero h h
  have hdiv := hnum.div hden hden0
  simp only [hP0] at hdiv
  have hfun : (fun t : ℝ => P1grad (perturb M i j t) r c)
      = fun t : ℝ => (2 * detM (perturb M i j t) * (M r c + t * indic i j r c)
          - fnorm2M (perturb M i j t) * Dim2Invariant2_dM (perturb M i j t) r c)
        / (detM (perturb M i j t) * detM (perturb M i j t)) := by
    funext t; simp only [P1grad, perturb]
  rw [hfun]
  convert hdiv using 1
  simp only [Dim2Invariant1_dMdM]
  field_simp
  ring


/-- C1: factorization equivalence of Apply — in exact arithmetic, for every
cached coefficient tensor `P`, every trial field `R` and every initial
output field `Y`, the sum-factorized kernel `AddMultGradPA_Kernel_2D`
terminates with output equal to `Y` plus the direct, non-factorized dense
contraction of the per-quadrature-point coefficient tensor (weighted by the
`DS` basis-gradient outer products and the inverse reference Jacobian)
against `R`; in particular it adds into `Y` rather than overwriting it. -/
theorem claim1_factorization_equivalence {D Q NE : ℕ} (b g1 : BTab Q D)
    (Jtr : Mat2 ℚ) (P : TensorP Q NE) (R Y : Nodal D NE)
    (dx dy : Fin D) (comp : Fin 2) (e : Fin NE) :
    AddMultGradPA_Kernel_2D b g1 Jtr P R Y dx dy comp e
      = Y dx dy comp e + specDenseContract b g1 Jtr P R dx dy comp e := by
  unfold AddMultGradPA_Kernel_2D
  rw [applyAdd_eq_dense]

/-- C2: linearity of Apply in the trial field — for every fixed cached
coefficient tensor and scalars `s, t`, the contribution the Apply kernel adds
to the output field satisfies
`applyAdd (s·u + t·v) = s·applyAdd u + t·applyAdd v` elementwise. -/
theorem claim2_apply_linear {D Q NE : ℕ} (b g1 : BTab Q D) (Jtr : Mat2 ℚ)
    (P : TensorP Q NE) (s t : ℚ) (u v : Nodal D NE) (dx dy : Fin D)
    (comp : Fin 2) (e : Fin NE) :
    applyAdd b g1 Jtr P
        (fun a1 a2 a3 a4 => s * u a1 a2 a3 a4 + t * v a1 a2 a3 a4) dx dy comp e
      = s * applyAdd b g1 Jtr P u dx dy comp e
        + t * applyAdd b g1 Jtr P v dx dy comp e := by
  rw [applyAdd_eq_dense, applyAdd_eq_dense, applyAdd_eq_dense]
  unfold specDenseContract
  simp only [Finset.mul_sum]
  simp only [← Finset.sum_add_distrib]
  refine Finset.sum_congr rfl fun qy _ => Finset.sum_congr rfl fun qx _ =>
    Finset.sum_congr rfl fun j1 _ => Finset.sum_congr rfl fun j2 _ =>
    Finset.sum_congr rfl fun rr _ => ?_
  ring

/-- C4 (counterexample): at a concrete configuration (`D1D = 2`, `Q1D = 1`,
one element, identity reference Jacobian) Setup does write the dense
`(dof*2) x (dof*2)` per-quadrature-point block: the `G` buffer entry at the
first flat index changes from its initial value `0`, refuting the claim
that Setup never allocates or writes such a block. -/
theorem claim4_counterexample :
    SetupGradPA_2D_G wW bW gW idJtr xW (zeroG 2 1 1) 0 0 0 0 0 0 0 0 0
      ≠ zeroG 2 1 1 0 0 0 0 0 0 0 0 0 := by
  norm_num [SetupGradPA_2D_G, DS, DSh, dPscaled, signJpt, Jpt, gradQ, fwd0, fwd1, fwdB,
    fwdG, mat2Mul, calcInverse, detM, fnorm2M, Dim2Invariant1_dMdM, Dim2Invariant2_dM,
    Dim2Invariant2_dMdM, indic, zeroG, wW, bW, gW, idJtr, xW, Fin.sum_univ_two,
    Fin.sum_univ_one, Matrix.cons_val_zero, Matrix.cons_val_one, Matrix.head_cons]

/-- C4 (amended): Setup stores the per-quadrature-point Hessian data in the
factored `2x2x2x2` tensor `P`, and additionally accumulates, for every pair
of local dofs, a dense `(dof*2) x (dof*2)` block per quadrature point into
`G`; that dense block is exactly the spec dense Hessian of the factored
tensor, so the dense cache is determined by (and redundant with) `P` and
`DS`, but it is materialized, and its size per quadrature point grows with
the dof count. -/
theorem claim4_amended_dense_block_written {D Q NE : ℕ} (W : Fin Q → Fin Q → ℚ)
    (b g1 : BTab Q D) (Jtr : Mat2 ℚ) (X : Nodal D NE) (G0 : TensorG D Q NE)
    (qx qy : Fin Q) (i1 i2 : Fin D) (r : Fin 2) (j1 j2 : Fin D) (rr : Fin 2)
    (e : Fin NE) :
    SetupGradPA_2D_G W b g1 Jtr X G0 qx qy i1 i2 r j1 j2 rr e
      = G0 qx qy i1 i2 r j1 j2 rr e
        + specDenseHessian b g1 Jtr (SetupGradPA_2D_P W b g1 Jtr X)
            qx qy i1 i2 r j1 j2 rr e := rfl

/-- C5: at every quadrature point of every element, Setup accumulates into
the dense buffer, at pair index `((i,r),(j,rr))`, the sum over `(c,cc)` of
`DS(i,c) * DS(j,cc)` times the matrix `Dim2Invariant1_dMdM(Jpt, r, c)`
scaled by `sign * 0.5 * weight * det(Jtr)`, where `Jpt` is the directly
(densely) interpolated local Jacobian and `sign = sign(det(Jpt))`; the
definition is total, so an inverted element (`det(Jpt) < 0`) is handled by
the sign flip and never raises an error. -/
theorem claim5_setup_sign_flip_accumulation {D Q NE : ℕ} (W : Fin Q → Fin Q → ℚ)
    (b g1 : BTab Q D) (Jtr : Mat2 ℚ) (X : Nodal D NE) (G0 : TensorG D Q NE)
    (qx qy : Fin Q) (i1 i2 : Fin D) (r : Fin 2) (j1 j2 : Fin D) (rr : Fin 2)
    (e : Fin NE) :
    SetupGradPA_2D_G W b g1 Jtr X G0 qx qy i1 i2 r j1 j2 rr e
      = G0 qx qy i1 i2 r j1 j2 rr e
        + ∑ c, ∑ cc, DS b g1 Jtr qx qy i1 i2 c * DS b g1 Jtr qx qy j1 j2 cc *
            (specSign b g1 Jtr X e qx qy * (1 / 2) * (W qx qy * detM Jtr) *
              Dim2Invariant1_dMdM (specJpt b g1 Jtr X e qx qy) r c rr cc) := by
  simp only [SetupGradPA_2D_G, dPscaled, Jpt_eq_spec, signJpt_eq_spec]

/-- C6 (counterexample): the pair `(D1D, Q1D) = (2, 17)` lies outside the
enumerated set `{2..5} x {1..5}`, yet its bit-packed id
`(2 << 4) | 17 = 0x31` collides with an enumerated case label, so
`AddMultGradPA` does not abort — refuting the claim that every
configuration outside the set deterministically aborts. -/
theorem claim6_counterexample :
    ¬ pairEnumerated 2 17 ∧
      (@AddMultGradPA 2 17 1 (zeroW 17) (zeroB 17 2)
          (zeroB 17 2) idJtr (initSt 2 17 1) (zeroN 2 1) (zeroN 2 1)
          (zeroN 2 1)).isOk = true := by
  constructor
  · decide
  · have h1 : detM idJtr = 1 := by norm_num [detM, idJtr]
    have h2 : idJtr 0 0 = 1 ∧ idJtr 1 1 = 1 ∧ idJtr 1 0 = 0 ∧ idJtr 0 1 = 0 := by
      norm_num [idJtr]
    have h3 : kernelSupported 2 17 := by decide
    rw [AddMultGradPA, if_pos h1, if_pos h2, if_pos h3]
    rfl


lemma runCalls_of_setup {D Q NE : ℕ} (W : Fin Q → Fin Q → ℚ) (b g1 : BTab Q D)
    (Jtr : Mat2 ℚ) (st : PAState D Q NE) (hst : st.setup = true)
    (h1 : detM Jtr = 1)
    (h2 : Jtr 0 0 = 1 ∧ Jtr 1 1 = 1 ∧ Jtr 1 0 = 0 ∧ Jtr 0 1 = 0)
    (h3 : kernelSupported D Q)
    (calls : List (Nodal D NE × Nodal D NE × Nodal D NE)) :
    runCalls W b g1 Jtr st calls = Except.ok (st, 0) := by
  induction calls with
  | nil => rfl
  | cons c rest ih =>
    have hcall : AddMultGradPA W b g1 Jtr st c.1 c.2.1 c.2.2
        = Except.ok (st, AddMultGradPA_Kernel_2D b g1 Jtr st.dPpa c.2.1 c.2.2, false) := by
      unfold AddMultGradPA runSetup
      rw [if_pos h1, if_pos h2, if_pos h3, if_pos hst]
      simp [hst]
    simp [runCalls, hcall, ih]

/-- C7: with the cache flag initially unset, any nonempty sequence of
successful `AddMultGradPA` calls runs Setup exactly once (zero times for the
empty sequence), and a second call with the same nodal field, trial field
and output buffer as a first call returns the same cached state, bit-identical
output, and does not re-invoke Setup. -/
theorem claim7_setup_once {D Q NE : ℕ} (W : Fin Q → Fin Q → ℚ) (b g1 : BTab Q D)
    (Jtr : Mat2 ℚ) (st0 : PAState D Q NE) (h0 : st0.setup = false)
    (h1 : detM Jtr = 1)
    (h2 : Jtr 0 0 = 1 ∧ Jtr 1 1 = 1 ∧ Jtr 1 0 = 0 ∧ Jtr 0 1 = 0)
    (h3 : kernelSupported D Q)
    (calls : List (Nodal D NE × Nodal D NE × Nodal D NE)) :
    (∃ stf, runCalls W b g1 Jtr st0 calls
        = Except.ok (stf, if calls.isEmpty then 0 else 1))
    ∧ (∀ X R C st1 out1 ran1,
        AddMultGradPA W b g1 Jtr st0 X R C = Except.ok (st1, out1, ran1)
        → AddMultGradPA W b g1 Jtr st1 X R C = Except.ok (st1, out1, false)) := by
  constructor
  · cases calls with
    | nil => exact ⟨st0, rfl⟩
    | cons c rest =>
      have hst1 : (runSetup W b g1 Jtr c.1 st0).setup = true := by
        unfold runSetup
        rw [if_neg (by simp [h0])]
      have hcall : AddMultGradPA W b g1 Jtr st0 c.1 c.2.1 c.2.2
          = Except.ok (runSetup W b g1 Jtr c.1 st0,
              AddMultGradPA_Kernel_2D b g1 Jtr (runSetup W b g1 Jtr c.1 st0).dPpa c.2.1 c.2.2,
              true) := by
        unfold AddMultGradPA
        rw [if_pos h1, if_pos h2, if_pos h3]
        simp [h0]
      refine ⟨runSetup W b g1 Jtr c.1 st0, ?_⟩
      simp [runCalls, hcall, runCalls_of_setup W b g1 Jtr _ hst1 h1 h2 h3 rest]
  · intro X R C st1 out1 ran1 hcall
    unfold AddMultGradPA at hcall
    rw [if_pos h1, if_pos h2, if_pos h3] at hcall
    simp only [Except.ok.injEq, Prod.mk.injEq] at hcall
    obtain ⟨hs, ho, hr⟩ := hcall
    have hst1 : st1.setup = true := by
      rw [← hs]
      unfold runSetup
      rw [if_neg (by simp [h0])]
    unfold AddMultGradPA
    rw [if_pos h1, if_pos h2, if_pos h3]
    have hskip : runSetup W b g1 Jtr X st1 = st1 := by
      unfold runSetup
      rw [if_pos hst1]
    simp only [hskip]
    rw [← ho, hs]
    simp [hst1]

/-- C9: at entry, `AddMultGradPA` verifies `det(Jtr) == 1`; a reference
Jacobian of non-unit determinant is a fatal, unrecovered abort
(`MFEM_VERIFY`), before any kernel dispatch. -/
theorem claim9_det_jtr_assert {D Q NE : ℕ} (W : Fin Q → Fin Q → ℚ) (b g1 : BTab Q D)
    (Jtr : Mat2 ℚ) (st : PAState D Q NE) (Xe Re Ce : Nodal D NE)
    (h : detM Jtr ≠ 1) :
    AddMultGradPA W b g1 Jtr st Xe Re Ce = Except.error () := by
  unfold AddMultGradPA
  rw [if_neg h]

/-- C10: every `AddMultGradPA` call verifies that the reference Jacobian is
exactly the 2x2 identity (`Jtr(0,0)==1, Jtr(1,1)==1, Jtr(1,0)==0,
Jtr(0,1)==0`) and aborts otherwise; the witness instantiates this at a
rotation with unit determinant, showing the check is strictly stronger than
`det(Jtr)==1`. -/
theorem claim10_identity_jtr_assert {D Q NE : ℕ} (W : Fin Q → Fin Q → ℚ) (b g1 : BTab Q D)
    (Jtr : Mat2 ℚ) (st : PAState D Q NE) (Xe Re Ce : Nodal D NE)
    (h : ¬(Jtr 0 0 = 1 ∧ Jtr 1 1 = 1 ∧ Jtr 1 0 = 0 ∧ Jtr 0 1 = 0)) :
    AddMultGradPA W b g1 Jtr st Xe Re Ce = Except.error () := by
  unfold AddMultGradPA
  by_cases h1 : detM Jtr = 1
  · rw [if_pos h1, if_neg h]
  · rw [if_neg h1]

/-- C6 (amended): for every configuration with `Q1D < 16` whose
`(D1D, Q1D)` pair lies outside `{2..5} x {1..5}`, `AddMultGradPA`
deterministically aborts with a fatal error and never dispatches any Setup
or Apply kernel.  (For `Q1D ≥ 16` the bit-packed id `(D1D << 4) | Q1D` can
alias an enumerated id and mis-dispatch instead of aborting — see the
counterexample.) -/
theorem claim6_amended_abort_below_16 {D Q NE : ℕ} (hq : Q < 16) (hout : ¬ pairEnumerated D Q)
    (W : Fin Q → Fin Q → ℚ) (b g1 : BTab Q D) (Jtr : Mat2 ℚ)
    (st : PAState D Q NE) (Xe Re Ce : Nodal D NE) :
    AddMultGradPA W b g1 Jtr st Xe Re Ce = Except.error () := by
  have hns : ¬ kernelSupported D Q := fun h => hout (kernelSupported_enumerated D Q hq h)
  unfold AddMultGradPA
  by_cases hc1 : detM Jtr = 1
  · by_cases hc2 : Jtr 0 0 = 1 ∧ Jtr 1 1 = 1 ∧ Jtr 1 0 = 0 ∧ Jtr 0 1 = 0
    · rw [if_pos hc1, if_pos hc2, if_neg hns]
    · rw [if_pos hc1, if_neg hc2]
  · rw [if_neg hc1]

/-- C8 (amended): the computation does not abort on degenerate elements:
whenever the reference-Jacobian checks pass and the kernel id is enumerated,
`AddMultGradPA` completes successfully for every nodal field, including
fields whose element map is degenerate (`det(Jpt) == 0` at a quadrature
point); the only fatal checks are the `Jtr` verifications and the unknown
kernel id. -/
theorem claim8_amended_no_abort_on_degenerate {D Q NE : ℕ} (W : Fin Q → Fin Q → ℚ) (b g1 : BTab Q D)
    (Jtr : Mat2 ℚ) (st : PAState D Q NE) (Xe Re Ce : Nodal D NE)
    (h1 : detM Jtr = 1)
    (h2 : Jtr 0 0 = 1 ∧ Jtr 1 1 = 1 ∧ Jtr 1 0 = 0 ∧ Jtr 0 1 = 0)
    (h3 : kernelSupported D Q) :
    (AddMultGradPA W b g1 Jtr st Xe Re Ce).isOk = true := by
  unfold AddMultGradPA
  rw [if_pos h1, if_pos h2, if_pos h3]
  rfl


/-- C3 witness: the theorem applied at the concrete matrix `mW` with
`det(mW) = 2 ≠ 0`. -/
theorem claim3_witness :
    detM mW ≠ 0 ∧
      HasDerivAt (fun t : ℝ => P1grad (perturb mW 0 0 t) 0 0)
        (Dim2Invariant1_dMdM mW 0 0 0 0) 0 :=
  ⟨by norm_num [detM, mW, Matrix.cons_val_zero, Matrix.cons_val_one, Matrix.head_cons],
    claim3_d2metric_is_derivative mW 0 0 0 0
      (by norm_num [detM, mW, Matrix.cons_val_zero, Matrix.cons_val_one, Matrix.head_cons])⟩

/-- C6 witness: the amended theorem applied at the concrete unsupported
configuration `(D1D, Q1D) = (6, 3)`. -/
theorem claim6_witness :
    (3 < 16 ∧ ¬ pairEnumerated 6 3) ∧
      @AddMultGradPA 6 3 1 (zeroW 3) (zeroB 3 6) (zeroB 3 6)
          idJtr (initSt 6 3 1) (zeroN 6 1) (zeroN 6 1) (zeroN 6 1)
        = Except.error () :=
  ⟨⟨by decide, by decide⟩,
    claim6_amended_abort_below_16 (by decide) (by decide) (zeroW 3) (zeroB 3 6)
      (zeroB 3 6) idJtr (initSt 6 3 1) (zeroN 6 1) (zeroN 6 1) (zeroN 6 1)⟩

/-- C7 witness: the theorem applied at a concrete valid configuration
(`D1D = 2`, `Q1D = 1`, identity reference Jacobian) with a two-call
sequence. -/
theorem claim7_witness :
    ((initSt 2 1 1).setup = false ∧ detM idJtr = 1 ∧ kernelSupported 2 1) ∧
      ((∃ stf, runCalls wW bW gW idJtr (initSt 2 1 1)
            [(xW, xW, zeroN 2 1), (xW, xW, zeroN 2 1)]
          = Except.ok (stf,
              if ([(xW, xW, zeroN 2 1), (xW, xW, zeroN 2 1)] :
                  List (Nodal 2 1 × Nodal 2 1 × Nodal 2 1)).isEmpty then 0 else 1))
      ∧ (∀ X R C st1 out1 ran1,
          AddMultGradPA wW bW gW idJtr (initSt 2 1 1) X R C
              = Except.ok (st1, out1, ran1)
          → AddMultGradPA wW bW gW idJtr st1 X R C
              = Except.ok (st1, out1, false))) :=
  ⟨⟨rfl, by norm_num [detM, idJtr], by decide⟩,
    claim7_setup_once wW bW gW idJtr (initSt 2 1 1) rfl
      (by norm_num [detM, idJtr]) (by norm_num [idJtr]) (by decide)
      [(xW, xW, zeroN 2 1), (xW, xW, zeroN 2 1)]⟩

/-- C8 counterexample: a concrete degenerate configuration — the all-zero
nodal field makes `det(Jpt) = 0` at the quadrature point — on which the
computation completes successfully instead of aborting, refuting the claim
that degenerate elements are fatal. -/
theorem claim8_counterexample :
    detM (Jpt bW gW idJtr (zeroN 2 1) 0 0 0) = 0 ∧
      (@AddMultGradPA 2 1 1 wW bW gW idJtr (initSt 2 1 1)
          (zeroN 2 1) (zeroN 2 1) (zeroN 2 1)).isOk = true := by
  constructor
  · norm_num [Jpt, gradQ, fwd0, fwd1, fwdB, fwdG, mat2Mul, calcInverse, detM, idJtr,
      zeroN, Fin.sum_univ_two, Fin.sum_univ_one, Matrix.cons_val_zero,
      Matrix.cons_val_one, Matrix.head_cons]
  · have h1 : detM idJtr = 1 := by norm_num [detM, idJtr]
    have h2 : idJtr 0 0 = 1 ∧ idJtr 1 1 = 1 ∧ idJtr 1 0 = 0 ∧ idJtr 0 1 = 0 := by
      norm_num [idJtr]
    have h3 : kernelSupported 2 1 := by decide
    rw [AddMultGradPA, if_pos h1, if_pos h2, if_pos h3]
    rfl

/-- C8 witness: the amended theorem applied at the concrete degenerate
all-zero nodal field. -/
theorem claim8_witness :
    (detM idJtr = 1 ∧ kernelSupported 2 1) ∧
      (@AddMultGradPA 2 1 1 wW bW gW idJtr (initSt 2 1 1)
          (zeroN 2 1) (xW) (zeroN 2 1)).isOk = true :=
  ⟨⟨by norm_num [detM, idJtr], by decide⟩,
    claim8_amended_no_abort_on_degenerate wW bW gW idJtr (initSt 2 1 1)
      (zeroN 2 1) xW (zeroN 2 1) (by norm_num [detM, idJtr])
      (by norm_num [idJtr]) (by decide)⟩

/-- C9 witness: the theorem applied at the concrete reference Jacobian
`scaleJtr` with `det(scaleJtr) = 2 ≠ 1`. -/
theorem claim9_witness :
    detM scaleJtr ≠ 1 ∧
      @AddMultGradPA 2 1 1 wW bW gW scaleJtr (initSt 2 1 1)
          (zeroN 2 1) (zeroN 2 1) (zeroN 2 1)
        = Except.error () :=
  ⟨by norm_num [detM, scaleJtr, Matrix.cons_val_zero, Matrix.cons_val_one,
      Matrix.head_cons],
    claim9_det_jtr_assert wW bW gW scaleJtr (initSt 2 1 1) (zeroN 2 1) (zeroN 2 1)
      (zeroN 2 1)
      (by norm_num [detM, scaleJtr, Matrix.cons_val_zero, Matrix.cons_val_one,
        Matrix.head_cons])⟩

/-- C10 witness: the theorem applied at the rotation `rotJtr`, which has unit
determinant but is not the identity — the call is fatal, so the identity
check is strictly stronger than `det(Jtr) == 1`. -/
theorem claim10_witness :
    (detM rotJtr = 1 ∧
      ¬ (rotJtr 0 0 = 1 ∧ rotJtr 1 1 = 1 ∧ rotJtr 1 0 = 0 ∧ rotJtr 0 1 = 0)) ∧
      @AddMultGradPA 2 1 1 wW bW gW rotJtr (initSt 2 1 1)
          (zeroN 2 1) (zeroN 2 1) (zeroN 2 1)
        = Except.error () :=
  ⟨⟨by norm_num [detM, rotJtr, Matrix.cons_val_zero, Matrix.cons_val_one,
      Matrix.head_cons],
    by norm_num [rotJtr, Matrix.cons_val_zero, Matrix.cons_val_one, Matrix.head_cons]⟩,
    claim10_identity_jtr_assert wW bW gW rotJtr (initSt 2 1 1) (zeroN 2 1)
      (zeroN 2 1) (zeroN 2 1)
      (by norm_num [rotJtr, Matrix.cons_val_zero, Matrix.cons_val_one,
        Matrix.head_cons])⟩

end TmopPA
